import Mathlib

/-!
Verification of the audio-ducking engine of `goxlr-playground`
(`src/goxlr-daemon/src/device/goxlr/components/ducker.rs`).

Modelling conventions:
* `f64` decibel values are modelled as `ℚ`; the code only adds, subtracts,
  multiplies and divides, which is exact over `ℚ`.  Rust's `x / 0.0` is IEEE
  infinity/NaN while Lean's `ℚ` division by zero yields `0`; theorems that
  touch the division by `attack_ms` therefore carry a `0 < attack_ms`
  hypothesis so the divergent case is excluded.
* `u64`/`usize` counters are modelled as `ℕ` (no reachable computation wraps).
* The asynchronous hardware layer is modelled by oracles: a write oracle
  telling which routing-cell writes succeed; failures are only logged by the
  code, so the model records the successful writes and the issued commits.
* The mute state (`self.profile.cough.mute_state != MuteState::Unmuted`) is a
  `Bool` parameter `muted`, and the tick length (`self.timer_interval`) is a
  `ℕ` parameter `timer_interval`.
-/

namespace GoxlrDucker

/-- `const MIC_DB_MAX: f64 = -72.2;` -/
def MIC_DB_MAX : ℚ := -72.2

/-- `struct SimulatedNoiseGate` (ducker.rs): envelope-follower memory of the
simulated noise gate. -/
structure SimulatedNoiseGate where
  last_attack : Nat
  last_release : Nat
  last_attack_db : ℚ
  was_above : Bool
deriving DecidableEq

/-- `Default for SimulatedNoiseGate`: zeroed, except
`last_release = GateTimes::Time2000ms.to_u16() = 2000` (the enum is outside
the sampled sources; `2000` is the value named by the variant). -/
def SimulatedNoiseGate.init : SimulatedNoiseGate :=
  { last_attack := 0, last_release := 2000, last_attack_db := 0, was_above := false }

/-- Body of `noise_gate` after the mute short-circuit and before the final
below-threshold clamp: the release/attack envelope update.  Returns the
updated gate memory and the envelope output (pre-clamp). -/
def gate_core (timer_interval : Nat) (db_input : ℚ) (threshold_db : ℚ)
    (attack_ms release_ms : Nat) (g : SimulatedNoiseGate) : SimulatedNoiseGate × ℚ :=
  if db_input < threshold_db then
    -- Signal is below the threshold
    let lr := g.last_release + timer_interval
    if lr > release_ms then
      if !g.was_above then
        ({ g with last_attack := 0, last_release := release_ms, was_above := true },
          MIC_DB_MAX)
      else
        ({ g with last_attack := 0, last_release := release_ms }, g.last_attack_db)
    else
      ({ g with last_attack := 0, last_release := lr }, g.last_attack_db)
  else
    -- Signal is above the threshold
    let la0 := g.last_attack + timer_interval
    let la := if la0 > attack_ms then attack_ms else la0
    ({ g with last_attack := la, last_release := 0, was_above := false },
      MIC_DB_MAX - ((MIC_DB_MAX - db_input) / (attack_ms : ℚ)) * (la : ℚ))

/-- `fn noise_gate(&mut self, db_input, threshold_db: i8, attenuation_pct: u8,
attack_ms: u16, release_ms: u16) -> f64` (ducker.rs:310-363).
`attenuation_pct` is accepted and never used, exactly as in the source.
`muted` models `self.profile.cough.mute_state != MuteState::Unmuted`. -/
def noise_gate (muted : Bool) (timer_interval : Nat) (db_input : ℚ) (threshold_db : Int)
    (attenuation_pct : Nat) (attack_ms release_ms : Nat) (g : SimulatedNoiseGate) :
    SimulatedNoiseGate × ℚ :=
  if muted then (g, MIC_DB_MAX)
  else
    let r := gate_core timer_interval db_input (threshold_db : ℚ) attack_ms release_ms g
    let output_db := if r.2 < (threshold_db : ℚ) then MIC_DB_MAX else r.2
    ({ r.1 with last_attack_db := output_db }, output_db)

/-- `fn handle_mic_calculations(&mut self, db: f64) -> (String, bool)`
(ducker.rs:288-308): runs the gate at `threshold + 12` and reports triggering
when the gated value is `>=` the nominal threshold. -/
def handle_mic_calculations (muted : Bool) (timer_interval : Nat) (threshold : Int)
    (attenuation attack release : Nat) (g : SimulatedNoiseGate) (db : ℚ) :
    SimulatedNoiseGate × (String × Bool) :=
  let r := noise_gate muted timer_interval db (threshold + 12) attenuation attack release g
  (r.1, ("Mic", decide ((threshold : ℚ) ≤ r.2)))

/-! ### Scenario D run (claim C2): threshold −20 dB, attack 40 ms, tick 20 ms,
input −40 dB for one tick then −10 dB. -/

/-- Gate state and output after the −40 dB tick. -/
def scenarioD_r0 : SimulatedNoiseGate × ℚ :=
  noise_gate false 20 (-40) (-20) 0 40 2000 SimulatedNoiseGate.init

/-- Gate state and output after the first −10 dB tick. -/
def scenarioD_r1 : SimulatedNoiseGate × ℚ :=
  noise_gate false 20 (-10) (-20) 0 40 2000 scenarioD_r0.1

/-- Gate state and output after the second −10 dB tick. -/
def scenarioD_r2 : SimulatedNoiseGate × ℚ :=
  noise_gate false 20 (-10) (-20) 0 40 2000 scenarioD_r1.1

theorem scenarioD_r0_eq :
    scenarioD_r0 = (⟨0, 2000, -72.2, true⟩, (-72.2 : ℚ)) := by
  norm_num [scenarioD_r0, noise_gate, gate_core, SimulatedNoiseGate.init, MIC_DB_MAX]

theorem scenarioD_r1_eq :
    scenarioD_r1 = (⟨20, 0, -72.2, false⟩, (-72.2 : ℚ)) := by
  rw [scenarioD_r1, scenarioD_r0_eq]
  norm_num [noise_gate, gate_core, MIC_DB_MAX]

theorem scenarioD_r2_eq :
    scenarioD_r2 = (⟨40, 0, -10, false⟩, (-10 : ℚ)) := by
  rw [scenarioD_r2, scenarioD_r1_eq]
  norm_num [noise_gate, gate_core, MIC_DB_MAX]

/-- C2 (counterexample): in Scenario D the gated output after the first
−10 dB tick is the floor −72.2, not the 50%-interpolated value
`(MIC_DB_MAX + (-10)) / 2 = -41.1`: the interpolated value lies below the
threshold −20 and the final clamp of `noise_gate` sends it to the floor. -/
theorem claim_C2_counterexample :
    scenarioD_r1.2 = MIC_DB_MAX ∧ scenarioD_r1.2 ≠ (MIC_DB_MAX + (-10)) / 2 := by
  rw [scenarioD_r1_eq]
  norm_num [MIC_DB_MAX]

/-- C2 (amended): gate attack dynamics for Scenario D as the code computes
them.  The envelope value after the first −10 dB tick is the 50% interpolation
−41.1, but it is below the threshold −20 and is clamped, so the returned
gated output is the floor; after the second tick the envelope reaches −10
(100%, clamped at the attack time) and is returned unchanged.  Triggering
(gated output ≥ −20) is false after tick 1 and true after tick 2. -/
theorem claim_C2 :
    (gate_core 20 (-10) (-20) 40 2000 scenarioD_r0.1).2 = (MIC_DB_MAX + (-10)) / 2 ∧
    (gate_core 20 (-10) (-20) 40 2000 scenarioD_r0.1).2 < -20 ∧
    scenarioD_r1.2 = MIC_DB_MAX ∧
    scenarioD_r2.2 = -10 ∧
    ¬ ((-20 : ℚ) ≤ scenarioD_r1.2) ∧
    ((-20 : ℚ) ≤ scenarioD_r2.2) := by
  have h0 := scenarioD_r0_eq
  refine ⟨?_, ?_, ?_, ?_, ?_, ?_⟩
  · rw [h0]
    norm_num [gate_core, MIC_DB_MAX]
  · rw [h0]
    norm_num [gate_core, MIC_DB_MAX]
  · rw [scenarioD_r1_eq]
    norm_num [MIC_DB_MAX]
  · rw [scenarioD_r2_eq]
  · rw [scenarioD_r1_eq]
    norm_num
  · rw [scenarioD_r2_eq]
    norm_num

/-- C6 (counterexample): the gate floor property fails as stated.  With
threshold −100 dB (below the floor), raw input −90 dB, attack 40 ms and the
default gate state, the attack interpolation moves the output from the floor
toward −90 and returns −81.1 < MIC_DB_MAX, and the final clamp does not fire
because −81.1 ≥ −100. -/
theorem claim_C6_counterexample :
    ¬ MIC_DB_MAX ≤ (noise_gate false 20 (-90) (-100) 0 40 1000 SimulatedNoiseGate.init).2 := by
  norm_num [noise_gate, gate_core, SimulatedNoiseGate.init, MIC_DB_MAX]

/-- C6 (amended): gate floor property, restricted to thresholds at or above
the floor.  If `MIC_DB_MAX ≤ threshold_db` and `0 < attack_ms` (the code
divides by `attack_ms`), then for every raw input, mute flag and gate state
the gated output is `≥ MIC_DB_MAX`, and when the source is muted the output
equals the floor.  (The converse fails: an unmuted clamped reading also
returns the floor.) -/
theorem claim_C6 (muted : Bool) (timer_interval : Nat) (db : ℚ) (threshold_db : Int)
    (attenuation attack_ms release_ms : Nat) (g : SimulatedNoiseGate)
    (hthr : MIC_DB_MAX ≤ (threshold_db : ℚ)) (hatt : 0 < attack_ms) :
    MIC_DB_MAX ≤ (noise_gate muted timer_interval db threshold_db attenuation
        attack_ms release_ms g).2 ∧
    (muted = true → (noise_gate muted timer_interval db threshold_db attenuation
        attack_ms release_ms g).2 = MIC_DB_MAX) := by
  cases muted with
  | true => exact ⟨by simp [noise_gate], fun _ => by simp [noise_gate]⟩
  | false =>
    refine ⟨?_, by simp⟩
    rw [noise_gate]
    rw [if_neg (by simp : ¬ (false = true))]
    dsimp only
    split
    · exact le_refl _
    · next h => exact le_trans hthr (not_lt.mp h)

/-- C6 witness: the amended floor property instantiated at threshold −20,
attack 40, raw input 5 dB, default gate state. -/
theorem claim_C6_witness :
    MIC_DB_MAX ≤ ((-20 : Int) : ℚ) ∧ 0 < 40 ∧
    MIC_DB_MAX ≤ (noise_gate false 20 5 (-20) 0 40 1000 SimulatedNoiseGate.init).2 := by
  refine ⟨by norm_num [MIC_DB_MAX], by norm_num, ?_⟩
  exact (claim_C6 false 20 5 (-20) 0 40 1000 SimulatedNoiseGate.init
    (by norm_num [MIC_DB_MAX]) (by norm_num)).1

/-- C9 (counterexample): the asymmetric-threshold consequence fails as
stated.  With nominal threshold −80 dB, raw input −68 dB and the default gate
state, the pre-clamp gated output −70.1 lands in `[-80, -68)` (between the
nominal threshold and nominal + 12) and is clamped to the floor −72.2, yet
triggering is true, because −72.2 ≥ −80. -/
theorem claim_C9_counterexample :
    ((-80 : Int) : ℚ) ≤ (gate_core 20 (-68) (((-80 : Int) + 12 : Int) : ℚ) 40 1000
        SimulatedNoiseGate.init).2 ∧
    (gate_core 20 (-68) (((-80 : Int) + 12 : Int) : ℚ) 40 1000
        SimulatedNoiseGate.init).2 < ((-80 : Int) : ℚ) + 12 ∧
    (handle_mic_calculations false 20 (-80) 0 40 1000 SimulatedNoiseGate.init (-68)).2.2
      = true := by
  refine ⟨?_, ?_, ?_⟩
  · norm_num [gate_core, SimulatedNoiseGate.init, MIC_DB_MAX]
  · norm_num [gate_core, SimulatedNoiseGate.init, MIC_DB_MAX]
  · norm_num [handle_mic_calculations, noise_gate, gate_core, SimulatedNoiseGate.init,
      MIC_DB_MAX]

/-- C9 (amended): asymmetric triggering thresholds, restricted to nominal
thresholds strictly above the floor.  The gate runs at `threshold + 12`; if
the pre-clamp gated output lands in `[threshold, threshold + 12)` it is
clamped to the floor by `noise_gate`, and — provided
`MIC_DB_MAX < threshold` — triggering is false, since the floor is below the
nominal threshold. -/
theorem claim_C9 (timer_interval : Nat) (db : ℚ) (threshold : Int)
    (attenuation attack release : Nat) (g : SimulatedNoiseGate)
    (hthr : MIC_DB_MAX < (threshold : ℚ))
    (hlo : (threshold : ℚ) ≤
      (gate_core timer_interval db ((threshold + 12 : Int) : ℚ) attack release g).2)
    (hhi : (gate_core timer_interval db ((threshold + 12 : Int) : ℚ) attack release g).2
      < ((threshold + 12 : Int) : ℚ)) :
    (noise_gate false timer_interval db (threshold + 12) attenuation attack release g).2
      = MIC_DB_MAX ∧
    (handle_mic_calculations false timer_interval threshold attenuation attack release g db).2.2
      = false := by
  have hclamp :
      (noise_gate false timer_interval db (threshold + 12) attenuation attack release g).2
        = MIC_DB_MAX := by
    rw [noise_gate]
    rw [if_neg (by simp : ¬ (false = true))]
    dsimp only
    rw [if_pos hhi]
  refine ⟨hclamp, ?_⟩
  rw [handle_mic_calculations]
  dsimp only
  rw [hclamp]
  simp only [decide_eq_false_iff_not, not_le]
  exact hthr

/-- C9 witness: the amended statement instantiated at threshold −20 and raw
input 40 dB, where the pre-clamp gated output is −16.1 ∈ [−20, −8). -/
theorem claim_C9_witness :
    MIC_DB_MAX < ((-20 : Int) : ℚ) ∧
    ((-20 : Int) : ℚ) ≤ (gate_core 20 40 (((-20 : Int) + 12 : Int) : ℚ) 40 1000
        SimulatedNoiseGate.init).2 ∧
    (gate_core 20 40 (((-20 : Int) + 12 : Int) : ℚ) 40 1000
        SimulatedNoiseGate.init).2 < (((-20 : Int) + 12 : Int) : ℚ) ∧
    (noise_gate false 20 40 ((-20 : Int) + 12) 0 40 1000 SimulatedNoiseGate.init).2
      = MIC_DB_MAX ∧
    (handle_mic_calculations false 20 (-20) 0 40 1000 SimulatedNoiseGate.init 40).2.2
      = false := by
  refine ⟨by norm_num [MIC_DB_MAX], by norm_num [gate_core, SimulatedNoiseGate.init, MIC_DB_MAX],
    by norm_num [gate_core, SimulatedNoiseGate.init, MIC_DB_MAX], ?_⟩
  exact claim_C9 20 40 (-20) 0 40 1000 SimulatedNoiseGate.init
    (by norm_num [MIC_DB_MAX])
    (by norm_num [gate_core, SimulatedNoiseGate.init, MIC_DB_MAX])
    (by norm_num [gate_core, SimulatedNoiseGate.init, MIC_DB_MAX])

/-! ### Routing applicator: `run_ducking` (ducker.rs:164-186).

The channel enums live outside the sampled sources, so input and output
channels are abstract types.  The routing table
`self.profile.ducking.output_routing` is a list of rows
`(input, [(output, state), ...])`; `writeOk input output` tells whether
`set_route_value` succeeds for a cell (failures are only logged).  A commit
(`apply_routing_for_channel`) is issued whenever `changed` is true; `changed`
is declared inside the inner loop in the source, so it is per cell.  Commit
failures are also only logged and alter no control flow, so they are not
modelled.  The result is the list of cells successfully set to the emitted
volume, and the list of issued commits. -/

/-- The inner loop of `run_ducking` over the cells of one input channel. -/
def run_cells {ι okind : Type} (input : ι) (writeOk : ι → okind → Bool) :
    List (okind × Bool) → List (ι × okind) × List ι
  | [] => ([], [])
  | (output, state) :: rest =>
    let changed := state && writeOk input output
    let r := run_cells input writeOk rest
    if changed then ((input, output) :: r.1, input :: r.2) else r

/-- `async fn run_ducking(&mut self, volume: u8)`: the outer loop over the
routing rows.  (The `volume` value written by each successful
`set_route_value` call is the single argument; since every write uses it, it
is not repeated in each write event.) -/
def run_ducking {ι okind : Type} (writeOk : ι → okind → Bool) :
    List (ι × List (okind × Bool)) → List (ι × okind) × List ι
  | [] => ([], [])
  | (input, input_map) :: rest =>
    let r := run_cells input writeOk input_map
    let rr := run_ducking writeOk rest
    (r.1 ++ rr.1, r.2 ++ rr.2)

/-- C3 (counterexample): with a single input channel `0` carrying two
duck-routed cells and all hardware writes succeeding, `run_ducking` issues
two commits for channel `0` — one per changed cell — not the single commit
per distinct channel that the claim requires. -/
theorem claim_C3_counterexample :
    (run_ducking (fun _ _ => true) [((0 : Nat), [((0 : Nat), true), ((1 : Nat), true)])]).1
        = [(0, 0), (0, 1)] ∧
    (run_ducking (fun _ _ => true) [((0 : Nat), [((0 : Nat), true), ((1 : Nat), true)])]).2
        = [0, 0] ∧
    ([0, 0] : List Nat) ≠ [0] := by
  refine ⟨rfl, rfl, by decide⟩

/-- C3 (amended): `run_ducking` sets every routing cell whose flag is true
and whose hardware write succeeds to the emitted volume, and issues one
commit per such cell, immediately after its write — so a channel with `k`
changed cells receives `k` commits, not one.  Formally: the commits are
exactly the input-channel components of the successful writes, and on each
row the successful writes are the flagged cells whose write succeeds. -/
theorem claim_C3 {ι okind : Type} (writeOk : ι → okind → Bool)
    (routing : List (ι × List (okind × Bool))) :
    (run_ducking writeOk routing).2 = ((run_ducking writeOk routing).1).map Prod.fst ∧
    ∀ input cells, run_cells input writeOk cells =
      ((cells.filter fun c => c.2 && writeOk input c.1).map fun c => (input, c.1),
       (cells.filter fun c => c.2 && writeOk input c.1).map fun _ => input) := by
  have hcells : ∀ (input : ι) (cells : List (okind × Bool)),
      run_cells input writeOk cells =
      ((cells.filter fun c => c.2 && writeOk input c.1).map fun c => (input, c.1),
       (cells.filter fun c => c.2 && writeOk input c.1).map fun _ => input) := by
    intro input cells
    induction cells with
    | nil => rfl
    | cons c rest ih =>
      obtain ⟨output, state⟩ := c
      rw [run_cells, ih]
      by_cases h : (state && writeOk input output) = true
      · simp [h, List.filter_cons]
      · simp only [Bool.not_eq_true] at h
        simp [h, List.filter_cons]
  refine ⟨?_, hcells⟩
  induction routing with
  | nil => rfl
  | cons row rest ih =>
    obtain ⟨input, input_map⟩ := row
    rw [run_ducking, hcells]
    simp only [List.map_append, List.map_map]
    rw [ih]
    rfl

/-- C8: hardware-write failure independence.  A cell whose write the
hardware layer fails contributes neither a write nor a commit, and the
result on the remaining cells is exactly the result with that cell removed:
each write and each commit is attempted independently, so a failure on one
cell leaves every other duck-routed cell written and committed. -/
theorem claim_C8 {ι okind : Type} (writeOk : ι → okind → Bool) (input : ι)
    (pre post : List (okind × Bool)) (c : okind × Bool)
    (hfail : writeOk input c.1 = false) :
    run_cells input writeOk (pre ++ c :: post) = run_cells input writeOk (pre ++ post) := by
  induction pre with
  | nil =>
    obtain ⟨output, state⟩ := c
    simp only [List.nil_append, run_cells]
    simp only at hfail
    simp [hfail]
  | cons p rest ih =>
    obtain ⟨output, state⟩ := p
    simp only [List.cons_append, run_cells, List.append_eq] at ih ⊢
    rw [ih]

/-- C8 witness: three duck-routed cells on channel `0`, the hardware write
failing on the middle cell: the other two cells are still written and
committed, exactly as if the failing cell were absent.  Concretely both runs
yield writes `[(0,0),(0,2)]` and commits `[0,0]`. -/
theorem claim_C8_witness :
    (fun _ o => !(o == 1) : Nat → Nat → Bool) 0 (1, true).1 = false ∧
    run_cells 0 (fun _ o => !(o == 1) : Nat → Nat → Bool)
        ([((0 : Nat), true)] ++ (1, true) :: [(2, true)])
      = run_cells 0 (fun _ o => !(o == 1) : Nat → Nat → Bool) ([((0 : Nat), true)] ++ [(2, true)]) ∧
    run_cells 0 (fun _ o => !(o == 1) : Nat → Nat → Bool)
        ([((0 : Nat), true)] ++ (1, true) :: [(2, true)])
      = ([(0, 0), (0, 2)], [0, 0]) := by
  refine ⟨by decide, ?_, by decide⟩
  exact claim_C8 (fun _ o => !(o == 1)) 0 [(0, true)] [(2, true)] (1, true) (by decide)

/-! ### Transition state machine (ducker.rs:101-161, 204-286, 384-428). -/

/-- One entry of a transition table
(`self.profile.ducking.transition.{ducking,unducking}`): a step volume and
the wait before the *next* step. -/
structure DuckStep where
  route_volume : Nat
  wait_time : Nat
deriving DecidableEq

/-- The configuration consumed by the engine: attack/release dwell times and
the two transition tables. -/
structure DuckingConfig where
  attack_time : Nat
  release_time : Nat
  ducking : List DuckStep
  unducking : List DuckStep
deriving DecidableEq

/-- `struct TempDucking` (ducker.rs:22-29). -/
structure TempDucking where
  ducking_index : Nat
  unducking_index : Nat
  last_duck_time : Nat
  last_unduck_time : Nat
deriving DecidableEq

/-- `struct DuckingCalculator` (ducker.rs:384-392).  The `HashSet<String>` of
active ducking reasons is modelled as a duplicate-free `List String`.
`is_empty` is a separately stored flag, as in the source; note that
`#[derive(Default)]` initialises it to `false` even though the set starts
empty. -/
structure DuckingCalculator where
  in_duck_mode : Bool
  in_ducking : Bool
  in_unducking : Bool
  set : List String
  is_empty : Bool
deriving DecidableEq

/-- Engine state: `TempDucking` plus `DuckingCalculator`
(the `temp` and `ducking_calc` fields of `AudioDucker`). -/
structure DuckerState where
  temp : TempDucking
  ducking_calc : DuckingCalculator
deriving DecidableEq

/-- `Default::default()` for the engine state (all zeroes / false;
in particular `is_empty = false` while `set` is empty, as derived in Rust). -/
def initState : DuckerState :=
  { temp :=
      { ducking_index := 0, unducking_index := 0, last_duck_time := 0,
        last_unduck_time := 0 },
    ducking_calc :=
      { in_duck_mode := false, in_ducking := false, in_unducking := false,
        set := [], is_empty := false } }

/-- `DuckingCalculator::handle_result` (ducker.rs:395-403): insert or remove
the reason and refresh the cached `is_empty` flag. -/
def handle_result (c : DuckingCalculator) (name : String) (state : Bool) : DuckingCalculator :=
  let s := if state then (if name ∈ c.set then c.set else name :: c.set) else c.set.erase name
  { c with set := s, is_empty := s.isEmpty }

/-- `need_duck_time_reset` (ducker.rs:405-407). -/
def need_duck_time_reset (c : DuckingCalculator) : Bool :=
  c.is_empty && !c.in_duck_mode && !c.in_ducking

/-- `need_first_duck` (ducker.rs:409-411). -/
def need_first_duck (c : DuckingCalculator) : Bool :=
  !c.is_empty && !c.in_duck_mode && !c.in_ducking

/-- `need_other_duck` (ducker.rs:413-415). -/
def need_other_duck (c : DuckingCalculator) (size index : Nat) : Bool :=
  c.in_duck_mode && c.in_ducking && !c.in_unducking &&
    decide (0 < size) && decide (index < size)

/-- `need_unduck_time_reset` (ducker.rs:417-419). -/
def need_unduck_time_reset (c : DuckingCalculator) : Bool :=
  !c.is_empty && c.in_duck_mode && c.in_ducking

/-- `need_first_unduck` (ducker.rs:421-423). -/
def need_first_unduck (c : DuckingCalculator) : Bool :=
  c.is_empty && c.in_duck_mode && !c.in_unducking

/-- `need_other_unduck` (ducker.rs:425-427). -/
def need_other_unduck (c : DuckingCalculator) (size index : Nat) : Bool :=
  !c.in_duck_mode && !c.in_ducking && c.in_unducking &&
    decide (0 < size) && decide (index < size)

/-- `fn update_check_time(&mut self, duck: bool, time: u64) -> bool`
(ducker.rs:205-223): while the accumulator is still below `time`, advance it
by one tick interval and report `false`; once it is at or past `time`,
report `true` without touching it. -/
def update_check_time (timer_interval : Nat) (duck : Bool) (time : Nat)
    (t : TempDucking) : TempDucking × Bool :=
  let last_time := if duck then t.last_duck_time else t.last_unduck_time
  if last_time < time then
    (if duck then { t with last_duck_time := t.last_duck_time + timer_interval }
     else { t with last_unduck_time := t.last_unduck_time + timer_interval }, false)
  else (t, true)

/-- Fallback table entry; never used from a reachable state (claim C10), it
only makes the Rust panicking index accesses total. -/
def noStep : DuckStep := { route_volume := 0, wait_time := 0 }

/-- `fn handle_first(&mut self, duck: bool) -> (bool, u8)` (ducker.rs:225-255). -/
def handle_first (cfg : DuckingConfig) (timer_interval : Nat) (duck : Bool)
    (s : DuckerState) : DuckerState × (Bool × Nat) :=
  let at_time := if duck then cfg.attack_time else cfg.release_time
  let r := update_check_time timer_interval duck at_time s.temp
  if !r.2 then ({ s with temp := r.1 }, (false, 0))
  else
    let c := { s.ducking_calc with in_duck_mode := duck, in_ducking := duck, in_unducking := !duck }
    if duck then
      let t :=
        { r.1 with
          ducking_index := r.1.ducking_index + 1, last_unduck_time := 0, unducking_index := 0 }
      ({ temp := t, ducking_calc := c }, (true, (cfg.ducking.getD 0 noStep).route_volume))
    else
      let t :=
        { r.1 with
          unducking_index := r.1.unducking_index + 1, last_duck_time := 0, ducking_index := 0 }
      ({ temp := t, ducking_calc := c }, (true, (cfg.unducking.getD 0 noStep).route_volume))

/-- `fn handle_other(&mut self, duck: bool) -> (bool, u8)` (ducker.rs:257-286). -/
def handle_other (cfg : DuckingConfig) (timer_interval : Nat) (duck : Bool)
    (s : DuckerState) : DuckerState × (Bool × Nat) :=
  let wait_time := if duck then (cfg.ducking.getD (s.temp.ducking_index - 1) noStep).wait_time
    else (cfg.unducking.getD (s.temp.unducking_index - 1) noStep).wait_time
  let r := update_check_time timer_interval duck wait_time s.temp
  if !r.2 then ({ s with temp := r.1 }, (false, 0))
  else if duck then
    let index := r.1.ducking_index
    let t :=
      { r.1 with
        ducking_index := index + 1, last_duck_time := 0, unducking_index := 0 }
    ({ s with temp := t }, (true, (cfg.ducking.getD index noStep).route_volume))
  else
    let index := r.1.unducking_index
    let t :=
      { r.1 with
        unducking_index := index + 1, last_unduck_time := 0, ducking_index := 0 }
    ({ s with temp := t }, (true, (cfg.unducking.getD index noStep).route_volume))

/-- Which of the four transition branches ran on a tick. -/
inductive Branch where
  | firstDuck
  | otherDuck
  | firstUnduck
  | otherUnduck
deriving DecidableEq

/-- Observable outcome of one evaluation of `handle_ducking_calculations`:
the next engine state, the volume emissions handed to `run_ducking`, the
branch bodies that executed, and whether the empty-transition debug message
was logged. -/
structure TickResult where
  state : DuckerState
  emissions : List Nat
  branches : List Branch
  logged_empty : Bool
deriving DecidableEq

/-- The accumulator-reset prelude of `handle_ducking_calculations`
(ducker.rs:111-115). -/
def duck_time_resets (s : DuckerState) : DuckerState :=
  if need_duck_time_reset s.ducking_calc then
    { s with temp := { s.temp with last_duck_time := 0 } }
  else if need_unduck_time_reset s.ducking_calc then
    { s with temp := { s.temp with last_unduck_time := 0 } }
  else s

/-- `async fn handle_ducking_calculations(&mut self)` (ducker.rs:101-161):
skip everything if either transition table is empty (logging at debug
level); otherwise maybe reset one accumulator, then evaluate the four
transition branches as an if/else-if chain.  `saturating_div(1)` in the
source is the identity, so the sizes passed to the `need_other_*` guards are
the plain table lengths. -/
def handle_ducking_calculations (cfg : DuckingConfig) (timer_interval : Nat)
    (s : DuckerState) : TickResult :=
  if cfg.ducking.isEmpty || cfg.unducking.isEmpty then
    { state := s, emissions := [], branches := [], logged_empty := true }
  else
    let s0 := duck_time_resets s
    if need_first_duck s0.ducking_calc then
      let r := handle_first cfg timer_interval true s0
      { state := r.1, emissions := if r.2.1 then [r.2.2] else [],
        branches := [Branch.firstDuck], logged_empty := false }
    else if need_other_duck s0.ducking_calc cfg.ducking.length s0.temp.ducking_index then
      let r := handle_other cfg timer_interval true s0
      { state := r.1, emissions := if r.2.1 then [r.2.2] else [],
        branches := [Branch.otherDuck], logged_empty := false }
    else if need_first_unduck s0.ducking_calc then
      let r := handle_first cfg timer_interval false s0
      { state := r.1, emissions := if r.2.1 then [r.2.2] else [],
        branches := [Branch.firstUnduck], logged_empty := false }
    else if need_other_unduck s0.ducking_calc cfg.unducking.length s0.temp.unducking_index then
      let r := handle_other cfg timer_interval false s0
      { state := r.1, emissions := if r.2.1 then [r.2.2] else [],
        branches := [Branch.otherUnduck], logged_empty := false }
    else
      { state := s0, emissions := [], branches := [], logged_empty := false }

/-- One engine tick at the ducker-state level (`handle_ducking`,
ducker.rs:53-86, with the mic input enabled): if the mic level read
succeeded, `handle_result` records the triggering outcome `b` under the
reason `"Mic"` (`mic = some b`); a failed read (`mic = none`) skips the
aggregator update; then the transition machine runs. -/
def tickCalc (cfg : DuckingConfig) (timer_interval : Nat) (mic : Option Bool)
    (s : DuckerState) : TickResult :=
  let s1 := match mic with
    | none => s
    | some b => { s with ducking_calc := handle_result s.ducking_calc "Mic" b }
  handle_ducking_calculations cfg timer_interval s1

/-- Iterated ticks, collecting each tick's emissions. -/
def runTicks (cfg : DuckingConfig) (timer_interval : Nat) :
    List (Option Bool) → DuckerState → List (List Nat) × DuckerState
  | [], s => ([], s)
  | mic :: rest, s =>
    let r := tickCalc cfg timer_interval mic s
    let rr := runTicks cfg timer_interval rest r.state
    (r.emissions :: rr.1, rr.2)

/-- C5: at most one table-step emission per tick.  For every configuration,
tick interval, mic outcome and engine state, a single tick evaluation hands
at most one volume to `run_ducking`, and at most one of the four transition
branch bodies (first-duck, other-duck, first-unduck, other-unduck) executes:
the guards are evaluated as an if/else-if chain, so at most one fires. -/
theorem claim_C5 (cfg : DuckingConfig) (timer_interval : Nat) (mic : Option Bool)
    (s : DuckerState) :
    ((tickCalc cfg timer_interval mic s).emissions).length ≤ 1 ∧
    ((tickCalc cfg timer_interval mic s).branches).length ≤ 1 := by
  cases mic <;>
    · simp only [tickCalc, handle_ducking_calculations]
      repeat' split
      all_goals simp

/-- C7: empty-table policy.  If either transition table is empty, the tick's
ducking evaluation (`handle_ducking_calculations`) is skipped entirely:
the engine state is returned unchanged, no volume is emitted, no branch
executes, and the debug message about the empty transition is logged —
regardless of the microphone level (the statement holds for every engine
state, hence for every aggregator content the mic handling produced). -/
theorem claim_C7 (cfg : DuckingConfig) (timer_interval : Nat) (s : DuckerState)
    (h : cfg.ducking = [] ∨ cfg.unducking = []) :
    handle_ducking_calculations cfg timer_interval s =
      { state := s, emissions := [], branches := [], logged_empty := true } := by
  rw [handle_ducking_calculations]
  rcases h with h | h <;> simp [h]

/-- C7 witness: a configuration with an empty duck table skips the tick. -/
theorem claim_C7_witness :
    handle_ducking_calculations
        { attack_time := 100, release_time := 100, ducking := [],
          unducking := [⟨80, 0⟩] } 20 initState =
      { state := initState, emissions := [], branches := [], logged_empty := true } :=
  claim_C7 _ 20 initState (Or.inl rfl)

/-! ### Scenario A run (claim C1): duck table `[(80, 0)]`, attack 100 ms,
tick 20 ms, microphone triggering on every tick. -/

/-- Scenario A configuration.  The claim fixes the duck table and attack
time; the unduck table must merely be non-empty for the evaluation to run
(`[(100, 0)]`: restore to full volume immediately), and the release time is
immaterial within the scenario (100 ms). -/
def scenarioA_cfg : DuckingConfig :=
  { attack_time := 100, release_time := 100, ducking := [⟨80, 0⟩],
    unducking := [⟨100, 0⟩] }

/-- `n` Scenario A ticks, each with the gated mic level at or above the
threshold (triggering true). -/
def scenarioA_run (n : Nat) : List (List Nat) × DuckerState :=
  runTicks scenarioA_cfg 20 (List.replicate n (some true)) initState

/-- C1 (counterexample): in Scenario A the engine does NOT emit on the 5th
tick — after five ticks the accumulator has only just reached 100 ms and
`update_check_time` has reported false on each of them; the single emission
of volume 80 happens on the 6th tick. -/
theorem claim_C1_counterexample :
    ((scenarioA_run 6).1.getD 4 []) = [] ∧ ((scenarioA_run 6).1.getD 5 []) = [80] := by
  constructor <;> rfl

/-- C1 (amended): Scenario A with 6 consecutive triggering ticks emits
volume 80 exactly once, namely on the 6th tick: ticks 1–5 each advance the
attack accumulator by 20 ms (it stands at 100 ms after the 5th tick) and emit
nothing, and the 6th tick's check sees the accumulator at its threshold and
fires.  In general a wait check succeeds exactly on a tick whose evaluation
begins with the accumulator already at or above the threshold
(`update_check_time` increments and reports false otherwise). -/
theorem claim_C1 :
    (scenarioA_run 6).1 = [[], [], [], [], [], [80]] ∧
    (scenarioA_run 5).1 = [[], [], [], [], []] ∧
    (scenarioA_run 5).2.temp.last_duck_time = 100 ∧
    (∀ (timer_interval : Nat) (duck : Bool) (time : Nat) (t : TempDucking),
      (update_check_time timer_interval duck time t).2 = true ↔
        time ≤ (if duck then t.last_duck_time else t.last_unduck_time)) := by
  refine ⟨rfl, rfl, rfl, ?_⟩
  intro timer_interval duck time t
  rw [update_check_time]
  by_cases h : (if duck then t.last_duck_time else t.last_unduck_time) < time
  · simp [h, Nat.not_le.mpr h]
  · simp [h, Nat.not_lt.mp h]

/-! ### Dichotomy lemmas for the transition handlers. -/

/-- Either the accumulator was still short of `time` (it is advanced one
tick and the check fails), or it had reached `time` (state untouched, check
succeeds). -/
theorem update_check_time_spec (ti : Nat) (duck : Bool) (time : Nat) (t : TempDucking) :
    ((if duck then t.last_duck_time else t.last_unduck_time) < time ∧
      update_check_time ti duck time t =
        ((if duck then { t with last_duck_time := t.last_duck_time + ti }
          else { t with last_unduck_time := t.last_unduck_time + ti }), false)) ∨
    (time ≤ (if duck then t.last_duck_time else t.last_unduck_time) ∧
      update_check_time ti duck time t = (t, true)) := by
  rw [update_check_time]
  by_cases h : (if duck then t.last_duck_time else t.last_unduck_time) < time
  · exact Or.inl ⟨h, by simp [h]⟩
  · exact Or.inr ⟨Nat.not_lt.mp h, by simp [h]⟩

/-- `handle_first` in the duck direction: either the attack dwell is not yet
served (accumulator advanced, nothing emitted), or the first duck step fires:
flags move to duck mode, the duck cursor advances from its current value,
and the unduck accumulator and cursor are reset. -/
theorem handle_first_true_spec (cfg : DuckingConfig) (ti : Nat) (s : DuckerState) :
    (s.temp.last_duck_time < cfg.attack_time ∧
      handle_first cfg ti true s =
        ({ s with temp :=
            { s.temp with last_duck_time := s.temp.last_duck_time + ti } }, (false, 0))) ∨
    (cfg.attack_time ≤ s.temp.last_duck_time ∧
      handle_first cfg ti true s =
        ({ temp :=
            { s.temp with
              ducking_index := s.temp.ducking_index + 1, last_unduck_time := 0,
              unducking_index := 0 },
           ducking_calc :=
            { s.ducking_calc with
              in_duck_mode := true, in_ducking := true, in_unducking := false } },
          (true, (cfg.ducking.getD 0 noStep).route_volume))) := by
  rcases update_check_time_spec ti true cfg.attack_time s.temp with ⟨h, heq⟩ | ⟨h, heq⟩
  · refine Or.inl ⟨by simpa using h, ?_⟩
    simp only [handle_first, eq_self_iff_true, if_true]
    rw [heq]
    simp
  · refine Or.inr ⟨by simpa using h, ?_⟩
    simp only [handle_first, eq_self_iff_true, if_true]
    rw [heq]
    simp

/-- `handle_first` in the unduck direction. -/
theorem handle_first_false_spec (cfg : DuckingConfig) (ti : Nat) (s : DuckerState) :
    (s.temp.last_unduck_time < cfg.release_time ∧
      handle_first cfg ti false s =
        ({ s with temp :=
            { s.temp with last_unduck_time := s.temp.last_unduck_time + ti } }, (false, 0))) ∨
    (cfg.release_time ≤ s.temp.last_unduck_time ∧
      handle_first cfg ti false s =
        ({ temp :=
            { s.temp with
              unducking_index := s.temp.unducking_index + 1, last_duck_time := 0,
              ducking_index := 0 },
           ducking_calc :=
            { s.ducking_calc with
              in_duck_mode := false, in_ducking := false, in_unducking := true } },
          (true, (cfg.unducking.getD 0 noStep).route_volume))) := by
  rcases update_check_time_spec ti false cfg.release_time s.temp with ⟨h, heq⟩ | ⟨h, heq⟩
  · refine Or.inl ⟨by simpa using h, ?_⟩
    simp only [handle_first, Bool.false_eq_true, if_false]
    rw [heq]
    simp
  · refine Or.inr ⟨by simpa using h, ?_⟩
    simp only [handle_first, Bool.false_eq_true, if_false]
    rw [heq]
    simp

/-- `handle_other` in the duck direction: the wait compared is that of the
*previous* duck step (`ducking[index - 1]`); on success the volume of
`ducking[index]` is emitted and the cursor advances. -/
theorem handle_other_true_spec (cfg : DuckingConfig) (ti : Nat) (s : DuckerState) :
    (s.temp.last_duck_time
        < (cfg.ducking.getD (s.temp.ducking_index - 1) noStep).wait_time ∧
      handle_other cfg ti true s =
        ({ s with temp :=
            { s.temp with last_duck_time := s.temp.last_duck_time + ti } }, (false, 0))) ∨
    ((cfg.ducking.getD (s.temp.ducking_index - 1) noStep).wait_time
        ≤ s.temp.last_duck_time ∧
      handle_other cfg ti true s =
        ({ s with temp :=
            { s.temp with
              ducking_index := s.temp.ducking_index + 1, last_duck_time := 0,
              unducking_index := 0 } },
          (true, (cfg.ducking.getD s.temp.ducking_index noStep).route_volume))) := by
  rcases update_check_time_spec ti true
      (cfg.ducking.getD (s.temp.ducking_index - 1) noStep).wait_time s.temp with
    ⟨h, heq⟩ | ⟨h, heq⟩
  · refine Or.inl ⟨by simpa using h, ?_⟩
    simp only [handle_other, eq_self_iff_true, if_true]
    rw [heq]
    simp
  · refine Or.inr ⟨by simpa using h, ?_⟩
    simp only [handle_other, eq_self_iff_true, if_true]
    rw [heq]
    simp

/-- `handle_other` in the unduck direction. -/
theorem handle_other_false_spec (cfg : DuckingConfig) (ti : Nat) (s : DuckerState) :
    (s.temp.last_unduck_time
        < (cfg.unducking.getD (s.temp.unducking_index - 1) noStep).wait_time ∧
      handle_other cfg ti false s =
        ({ s with temp :=
            { s.temp with last_unduck_time := s.temp.last_unduck_time + ti } }, (false, 0))) ∨
    ((cfg.unducking.getD (s.temp.unducking_index - 1) noStep).wait_time
        ≤ s.temp.last_unduck_time ∧
      handle_other cfg ti false s =
        ({ s with temp :=
            { s.temp with
              unducking_index := s.temp.unducking_index + 1, last_unduck_time := 0,
              ducking_index := 0 } },
          (true, (cfg.unducking.getD s.temp.unducking_index noStep).route_volume))) := by
  rcases update_check_time_spec ti false
      (cfg.unducking.getD (s.temp.unducking_index - 1) noStep).wait_time s.temp with
    ⟨h, heq⟩ | ⟨h, heq⟩
  · refine Or.inl ⟨by simpa using h, ?_⟩
    simp only [handle_other, Bool.false_eq_true, if_false]
    rw [heq]
    simp
  · refine Or.inr ⟨by simpa using h, ?_⟩
    simp only [handle_other, Bool.false_eq_true, if_false]
    rw [heq]
    simp

/-! ### Reachability and the cursor invariant (claims C4 and C10). -/

/-- Engine states reachable from the reset state under a fixed configuration
and tick interval, across arbitrary tick sequences (each tick's mic outcome
is `none` for a failed level read, or `some b` for triggering result `b`). -/
inductive Reachable (cfg : DuckingConfig) (timer_interval : Nat) : DuckerState → Prop where
  | init : Reachable cfg timer_interval initState
  | step (s : DuckerState) (mic : Option Bool) : Reachable cfg timer_interval s →
      Reachable cfg timer_interval (tickCalc cfg timer_interval mic s).state

/-- The inductive invariant of the transition machine: the three direction
flags are always written together by `handle_first`, so `in_ducking` mirrors
`in_duck_mode` and `in_unducking` excludes it; each cursor stays within its
table; the cursor of the direction not in progress is 0; and the cursor of
the direction in progress is at least 1. -/
def Inv (cfg : DuckingConfig) (s : DuckerState) : Prop :=
  s.ducking_calc.in_ducking = s.ducking_calc.in_duck_mode ∧
  (s.ducking_calc.in_unducking = true → s.ducking_calc.in_duck_mode = false) ∧
  s.temp.ducking_index ≤ cfg.ducking.length ∧
  s.temp.unducking_index ≤ cfg.unducking.length ∧
  (s.ducking_calc.in_duck_mode = false → s.temp.ducking_index = 0) ∧
  (s.ducking_calc.in_duck_mode = true → s.temp.unducking_index = 0) ∧
  (s.ducking_calc.in_duck_mode = true → 1 ≤ s.temp.ducking_index) ∧
  (s.ducking_calc.in_unducking = true → 1 ≤ s.temp.unducking_index)

theorem inv_initState (cfg : DuckingConfig) : Inv cfg initState := by
  simp [Inv, initState]

theorem inv_handle_result (cfg : DuckingConfig) (s : DuckerState) (name : String) (b : Bool)
    (h : Inv cfg s) :
    Inv cfg { s with ducking_calc := handle_result s.ducking_calc name b } := by
  simpa [Inv, handle_result] using h

theorem duck_time_resets_calc (s : DuckerState) :
    (duck_time_resets s).ducking_calc = s.ducking_calc := by
  rw [duck_time_resets]
  split
  · rfl
  · split
    · rfl
    · rfl

theorem duck_time_resets_indices (s : DuckerState) :
    (duck_time_resets s).temp.ducking_index = s.temp.ducking_index ∧
    (duck_time_resets s).temp.unducking_index = s.temp.unducking_index := by
  rw [duck_time_resets]
  split
  · exact ⟨rfl, rfl⟩
  · split
    · exact ⟨rfl, rfl⟩
    · exact ⟨rfl, rfl⟩

theorem duck_time_resets_last_duck (s : DuckerState)
    (h : need_duck_time_reset s.ducking_calc = false) :
    (duck_time_resets s).temp.last_duck_time = s.temp.last_duck_time := by
  rw [duck_time_resets]
  rw [if_neg (by simp [h])]
  split
  · rfl
  · rfl

theorem duck_time_resets_last_unduck (s : DuckerState)
    (h : need_unduck_time_reset s.ducking_calc = false) :
    (duck_time_resets s).temp.last_unduck_time = s.temp.last_unduck_time := by
  rw [duck_time_resets]
  split
  · rfl
  · rw [if_neg (by simp [h])]

theorem inv_duck_time_resets (cfg : DuckingConfig) (s : DuckerState) (h : Inv cfg s) :
    Inv cfg (duck_time_resets s) := by
  rw [duck_time_resets]
  split
  · exact h
  · split
    · exact h
    · exact h

theorem inv_handle_first_duck (cfg : DuckingConfig) (ti : Nat) (s : DuckerState)
    (hne : cfg.ducking ≠ []) (hg : need_first_duck s.ducking_calc = true) (h : Inv cfg s) :
    Inv cfg (handle_first cfg ti true s).1 := by
  obtain ⟨h1, h2, h3, h4, h5, h6, h7, h8⟩ := h
  have hmode : s.ducking_calc.in_duck_mode = false := by
    simp only [need_first_duck, Bool.and_eq_true, Bool.not_eq_true'] at hg
    exact hg.1.2
  have hlen : 0 < cfg.ducking.length := List.length_pos.mpr hne
  have hidx : s.temp.ducking_index = 0 := h5 hmode
  rcases handle_first_true_spec cfg ti s with ⟨_, heq⟩ | ⟨_, heq⟩
  · rw [heq]
    exact ⟨h1, h2, h3, h4, h5, h6, h7, h8⟩
  · rw [heq]
    refine ⟨rfl, by simp, ?_, by simp, by simp, fun _ => rfl, fun _ => ?_, by simp⟩
    · show s.temp.ducking_index + 1 ≤ cfg.ducking.length
      omega
    · show 1 ≤ s.temp.ducking_index + 1
      omega

theorem inv_handle_first_unduck (cfg : DuckingConfig) (ti : Nat) (s : DuckerState)
    (hne : cfg.unducking ≠ []) (hg : need_first_unduck s.ducking_calc = true) (h : Inv cfg s) :
    Inv cfg (handle_first cfg ti false s).1 := by
  obtain ⟨h1, h2, h3, h4, h5, h6, h7, h8⟩ := h
  have hmode : s.ducking_calc.in_duck_mode = true := by
    simp only [need_first_unduck, Bool.and_eq_true, Bool.not_eq_true'] at hg
    exact hg.1.2
  have hlen : 0 < cfg.unducking.length := List.length_pos.mpr hne
  have hidx : s.temp.unducking_index = 0 := h6 hmode
  rcases handle_first_false_spec cfg ti s with ⟨_, heq⟩ | ⟨_, heq⟩
  · rw [heq]
    exact ⟨h1, h2, h3, h4, h5, h6, h7, h8⟩
  · rw [heq]
    refine ⟨rfl, fun _ => rfl, by simp, ?_, fun _ => rfl, by simp, by simp, fun _ => ?_⟩
    · show s.temp.unducking_index + 1 ≤ cfg.unducking.length
      omega
    · show 1 ≤ s.temp.unducking_index + 1
      omega

theorem inv_handle_other_duck (cfg : DuckingConfig) (ti : Nat) (s : DuckerState)
    (hg : need_other_duck s.ducking_calc cfg.ducking.length s.temp.ducking_index = true)
    (h : Inv cfg s) :
    Inv cfg (handle_other cfg ti true s).1 := by
  obtain ⟨h1, h2, h3, h4, h5, h6, h7, h8⟩ := h
  simp only [need_other_duck, Bool.and_eq_true, Bool.not_eq_true', decide_eq_true_eq] at hg
  obtain ⟨⟨⟨⟨hmode, hduck⟩, hund⟩, hlen⟩, hidx⟩ := hg
  rcases handle_other_true_spec cfg ti s with ⟨_, heq⟩ | ⟨_, heq⟩
  · rw [heq]
    exact ⟨h1, h2, h3, h4, h5, h6, h7, h8⟩
  · rw [heq]
    refine ⟨h1, h2, ?_, by simp, ?_, fun _ => rfl, fun _ => ?_, ?_⟩
    · show s.temp.ducking_index + 1 ≤ cfg.ducking.length
      omega
    · intro hc
      rw [hc] at hmode
      cases hmode
    · show 1 ≤ s.temp.ducking_index + 1
      omega
    · intro hc
      rw [hund] at hc
      cases hc

theorem inv_handle_other_unduck (cfg : DuckingConfig) (ti : Nat) (s : DuckerState)
    (hg : need_other_unduck s.ducking_calc cfg.unducking.length s.temp.unducking_index = true)
    (h : Inv cfg s) :
    Inv cfg (handle_other cfg ti false s).1 := by
  obtain ⟨h1, h2, h3, h4, h5, h6, h7, h8⟩ := h
  simp only [need_other_unduck, Bool.and_eq_true, Bool.not_eq_true', decide_eq_true_eq] at hg
  obtain ⟨⟨⟨⟨hmode, hduck⟩, hund⟩, hlen⟩, hidx⟩ := hg
  rcases handle_other_false_spec cfg ti s with ⟨_, heq⟩ | ⟨_, heq⟩
  · rw [heq]
    exact ⟨h1, h2, h3, h4, h5, h6, h7, h8⟩
  · rw [heq]
    refine ⟨h1, h2, by simp, ?_, fun _ => rfl, ?_, ?_, fun _ => ?_⟩
    · show s.temp.unducking_index + 1 ≤ cfg.unducking.length
      omega
    · intro hc
      rw [hc] at hmode
      cases hmode
    · intro hc
      rw [hc] at hmode
      cases hmode
    · show 1 ≤ s.temp.unducking_index + 1
      omega

theorem inv_handle_ducking_calculations (cfg : DuckingConfig) (ti : Nat) (s : DuckerState)
    (h : Inv cfg s) : Inv cfg (handle_ducking_calculations cfg ti s).state := by
  rw [handle_ducking_calculations]
  split
  · exact h
  · next hne =>
    have hdne : cfg.ducking ≠ [] := by
      intro hnil
      exact hne (by simp [hnil])
    have hune : cfg.unducking ≠ [] := by
      intro hnil
      exact hne (by simp [hnil])
    have h0 : Inv cfg (duck_time_resets s) := inv_duck_time_resets cfg s h
    have hidx := duck_time_resets_indices s
    dsimp only
    split
    · next hg => exact inv_handle_first_duck cfg ti _ hdne hg h0
    · split
      · next hg => exact inv_handle_other_duck cfg ti _ hg h0
      · split
        · next hg => exact inv_handle_first_unduck cfg ti _ hune hg h0
        · split
          · next hg => exact inv_handle_other_unduck cfg ti _ hg h0
          · exact h0

theorem inv_tickCalc (cfg : DuckingConfig) (ti : Nat) (mic : Option Bool) (s : DuckerState)
    (h : Inv cfg s) : Inv cfg (tickCalc cfg ti mic s).state := by
  cases mic with
  | none => exact inv_handle_ducking_calculations cfg ti s h
  | some b => exact inv_handle_ducking_calculations cfg ti _ (inv_handle_result cfg s "Mic" b h)

theorem inv_reachable (cfg : DuckingConfig) (ti : Nat) (s : DuckerState)
    (h : Reachable cfg ti s) : Inv cfg s := by
  induction h with
  | init => exact inv_initState cfg
  | step s mic _ ih => exact inv_tickCalc cfg ti mic s ih

/-- C10: implicit index safety.  In every reachable state, whenever the
continuing-step guard `need_other_duck` (resp. `need_other_unduck`) holds,
the corresponding cursor is at least 1 and strictly below the table length,
so both accesses of `handle_other` — entry `index - 1` for the wait and
entry `index` for the volume — are in bounds and the `usize` subtraction
`index - 1` cannot underflow; and a non-empty table makes the `[0]` access
of `handle_first` in-bounds.  Hence no tick evaluation indexes a table out
of bounds. -/
theorem claim_C10 (cfg : DuckingConfig) (ti : Nat) (s : DuckerState)
    (h : Reachable cfg ti s) :
    (need_other_duck s.ducking_calc cfg.ducking.length s.temp.ducking_index = true →
      1 ≤ s.temp.ducking_index ∧ s.temp.ducking_index - 1 < cfg.ducking.length ∧
      s.temp.ducking_index < cfg.ducking.length) ∧
    (need_other_unduck s.ducking_calc cfg.unducking.length s.temp.unducking_index = true →
      1 ≤ s.temp.unducking_index ∧ s.temp.unducking_index - 1 < cfg.unducking.length ∧
      s.temp.unducking_index < cfg.unducking.length) ∧
    (cfg.ducking ≠ [] → 0 < cfg.ducking.length) ∧
    (cfg.unducking ≠ [] → 0 < cfg.unducking.length) := by
  obtain ⟨h1, h2, h3, h4, h5, h6, h7, h8⟩ := inv_reachable cfg ti s h
  refine ⟨?_, ?_, fun hne => List.length_pos.mpr hne, fun hne => List.length_pos.mpr hne⟩
  · intro hg
    simp only [need_other_duck, Bool.and_eq_true, Bool.not_eq_true', decide_eq_true_eq] at hg
    obtain ⟨⟨⟨⟨hmode, _⟩, _⟩, _⟩, hidx⟩ := hg
    have := h7 hmode
    omega
  · intro hg
    simp only [need_other_unduck, Bool.and_eq_true, Bool.not_eq_true', decide_eq_true_eq] at hg
    obtain ⟨⟨⟨⟨_, _⟩, hund⟩, _⟩, hidx⟩ := hg
    have := h8 hund
    omega

/-- A configuration whose first duck step fires immediately (attack 0 ms)
and whose duck table has a second step: after one triggering tick the
reachable state satisfies the continuing-step guard non-vacuously. -/
def reachCfg : DuckingConfig :=
  { attack_time := 0, release_time := 0, ducking := [⟨80, 40⟩, ⟨60, 0⟩],
    unducking := [⟨100, 0⟩] }

/-- C10 witness: the index-safety statement instantiated at the state
reached after one triggering tick of `reachCfg`, where `need_other_duck`
holds with cursor 1 and table length 2. -/
theorem claim_C10_witness :
    (need_other_duck (tickCalc reachCfg 20 (some true) initState).state.ducking_calc
        reachCfg.ducking.length
        (tickCalc reachCfg 20 (some true) initState).state.temp.ducking_index = true →
      1 ≤ (tickCalc reachCfg 20 (some true) initState).state.temp.ducking_index ∧
      (tickCalc reachCfg 20 (some true) initState).state.temp.ducking_index - 1
        < reachCfg.ducking.length ∧
      (tickCalc reachCfg 20 (some true) initState).state.temp.ducking_index
        < reachCfg.ducking.length) ∧
    (need_other_unduck (tickCalc reachCfg 20 (some true) initState).state.ducking_calc
        reachCfg.unducking.length
        (tickCalc reachCfg 20 (some true) initState).state.temp.unducking_index = true →
      1 ≤ (tickCalc reachCfg 20 (some true) initState).state.temp.unducking_index ∧
      (tickCalc reachCfg 20 (some true) initState).state.temp.unducking_index - 1
        < reachCfg.unducking.length ∧
      (tickCalc reachCfg 20 (some true) initState).state.temp.unducking_index
        < reachCfg.unducking.length) ∧
    (reachCfg.ducking ≠ [] → 0 < reachCfg.ducking.length) ∧
    (reachCfg.unducking ≠ [] → 0 < reachCfg.unducking.length) :=
  claim_C10 reachCfg 20 (tickCalc reachCfg 20 (some true) initState).state
    (Reachable.step initState (some true) Reachable.init)

/-- The wait threshold the next duck-step fire is checked against: the
attack dwell for the first step (cursor 0), the previous step's wait time
otherwise. -/
def duckThreshold (cfg : DuckingConfig) (s : DuckerState) : Nat :=
  if s.temp.ducking_index = 0 then cfg.attack_time
  else (cfg.ducking.getD (s.temp.ducking_index - 1) noStep).wait_time

/-- The wait threshold the next unduck-step fire is checked against. -/
def unduckThreshold (cfg : DuckingConfig) (s : DuckerState) : Nat :=
  if s.temp.unducking_index = 0 then cfg.release_time
  else (cfg.unducking.getD (s.temp.unducking_index - 1) noStep).wait_time

/-- Per-tick cursor behaviour of the transition evaluation, from any state
satisfying the invariant: a cursor strictly increases only by exactly one
and only when its accumulated wait has reached the relevant threshold, and
any forward progress of one cursor resets the other cursor to 0. -/
theorem calc_step_cursors (cfg : DuckingConfig) (ti : Nat) (s : DuckerState)
    (hI : Inv cfg s) :
    (s.temp.ducking_index
        < (handle_ducking_calculations cfg ti s).state.temp.ducking_index →
      (handle_ducking_calculations cfg ti s).state.temp.ducking_index
        = s.temp.ducking_index + 1 ∧
      duckThreshold cfg s ≤ s.temp.last_duck_time ∧
      (handle_ducking_calculations cfg ti s).state.temp.unducking_index = 0) ∧
    (s.temp.unducking_index
        < (handle_ducking_calculations cfg ti s).state.temp.unducking_index →
      (handle_ducking_calculations cfg ti s).state.temp.unducking_index
        = s.temp.unducking_index + 1 ∧
      unduckThreshold cfg s ≤ s.temp.last_unduck_time ∧
      (handle_ducking_calculations cfg ti s).state.temp.ducking_index = 0) := by
  obtain ⟨h1, h2, h3, h4, h5, h6, h7, h8⟩ := hI
  have hcalc := duck_time_resets_calc s
  have hidx := duck_time_resets_indices s
  rw [handle_ducking_calculations]
  split
  · exact ⟨fun hc => absurd hc (lt_irrefl _), fun hc => absurd hc (lt_irrefl _)⟩
  · dsimp only
    split
    · next hg =>
      rw [hcalc] at hg
      simp only [need_first_duck, Bool.and_eq_true, Bool.not_eq_true'] at hg
      obtain ⟨⟨hempty, hmode⟩, _⟩ := hg
      have hld : (duck_time_resets s).temp.last_duck_time = s.temp.last_duck_time :=
        duck_time_resets_last_duck s (by simp [need_duck_time_reset, hempty])
      rcases handle_first_true_spec cfg ti (duck_time_resets s) with ⟨_, heq⟩ | ⟨hle, heq⟩
      · rw [heq]
        dsimp only
        rw [hidx.1, hidx.2]
        exact ⟨fun hc => absurd hc (lt_irrefl _), fun hc => absurd hc (lt_irrefl _)⟩
      · rw [heq]
        dsimp only
        rw [hidx.1]
        refine ⟨fun _ => ⟨rfl, ?_, rfl⟩, fun hc => absurd hc (Nat.not_lt_zero _)⟩
        rw [duckThreshold, if_pos (h5 hmode)]
        rw [hld] at hle
        exact hle
    · split
      · next hg =>
        rw [hcalc, hidx.1] at hg
        simp only [need_other_duck, Bool.and_eq_true, Bool.not_eq_true',
          decide_eq_true_eq] at hg
        obtain ⟨⟨⟨⟨hmode, _⟩, _⟩, _⟩, _⟩ := hg
        have hld : (duck_time_resets s).temp.last_duck_time = s.temp.last_duck_time :=
          duck_time_resets_last_duck s (by simp [need_duck_time_reset, hmode])
        rcases handle_other_true_spec cfg ti (duck_time_resets s) with ⟨_, heq⟩ | ⟨hle, heq⟩
        · rw [heq]
          dsimp only
          rw [hidx.1, hidx.2]
          exact ⟨fun hc => absurd hc (lt_irrefl _), fun hc => absurd hc (lt_irrefl _)⟩
        · rw [heq]
          dsimp only
          rw [hidx.1]
          refine ⟨fun _ => ⟨rfl, ?_, rfl⟩, fun hc => absurd hc (Nat.not_lt_zero _)⟩
          have hone : 1 ≤ s.temp.ducking_index := h7 hmode
          rw [duckThreshold, if_neg (by omega)]
          rw [hld, hidx.1] at hle
          exact hle
      · split
        · next hg =>
          rw [hcalc] at hg
          simp only [need_first_unduck, Bool.and_eq_true, Bool.not_eq_true'] at hg
          obtain ⟨⟨hempty, hmode⟩, _⟩ := hg
          have hlu : (duck_time_resets s).temp.last_unduck_time = s.temp.last_unduck_time :=
            duck_time_resets_last_unduck s (by simp [need_unduck_time_reset, hempty])
          rcases handle_first_false_spec cfg ti (duck_time_resets s) with
            ⟨_, heq⟩ | ⟨hle, heq⟩
          · rw [heq]
            dsimp only
            rw [hidx.1, hidx.2]
            exact ⟨fun hc => absurd hc (lt_irrefl _), fun hc => absurd hc (lt_irrefl _)⟩
          · rw [heq]
            dsimp only
            rw [hidx.2]
            refine ⟨fun hc => absurd hc (Nat.not_lt_zero _), fun _ => ⟨rfl, ?_, rfl⟩⟩
            rw [unduckThreshold, if_pos (h6 hmode)]
            rw [hlu] at hle
            exact hle
        · split
          · next hg =>
            rw [hcalc, hidx.2] at hg
            simp only [need_other_unduck, Bool.and_eq_true, Bool.not_eq_true',
              decide_eq_true_eq] at hg
            obtain ⟨⟨⟨⟨hmode, _⟩, hund⟩, _⟩, _⟩ := hg
            have hlu : (duck_time_resets s).temp.last_unduck_time = s.temp.last_unduck_time :=
              duck_time_resets_last_unduck s (by simp [need_unduck_time_reset, hmode])
            rcases handle_other_false_spec cfg ti (duck_time_resets s) with
              ⟨_, heq⟩ | ⟨hle, heq⟩
            · rw [heq]
              dsimp only
              rw [hidx.1, hidx.2]
              exact ⟨fun hc => absurd hc (lt_irrefl _), fun hc => absurd hc (lt_irrefl _)⟩
            · rw [heq]
              dsimp only
              rw [hidx.2]
              refine ⟨fun hc => absurd hc (Nat.not_lt_zero _), fun _ => ⟨rfl, ?_, rfl⟩⟩
              have hone : 1 ≤ s.temp.unducking_index := h8 hund
              rw [unduckThreshold, if_neg (by omega)]
              rw [hlu, hidx.2] at hle
              exact hle
          · dsimp only
            rw [hidx.1, hidx.2]
            exact ⟨fun hc => absurd hc (lt_irrefl _), fun hc => absurd hc (lt_irrefl _)⟩

/-- C4: monotonic cursor progress.  In every reachable state the duck
cursor never exceeds the duck-table length (each entry is walked at most
once) and likewise for the unduck cursor; across any single tick a cursor
strictly increases only by exactly one and only when its wait accumulator
had reached the threshold being waited on (the attack/release dwell for a
first step, the previous step's wait otherwise); and whenever the unduck
cursor makes forward progress on a tick the duck cursor is reset to 0,
and vice versa. -/
theorem claim_C4 (cfg : DuckingConfig) (ti : Nat) (s : DuckerState)
    (h : Reachable cfg ti s) (mic : Option Bool) :
    s.temp.ducking_index ≤ cfg.ducking.length ∧
    s.temp.unducking_index ≤ cfg.unducking.length ∧
    (s.temp.ducking_index < (tickCalc cfg ti mic s).state.temp.ducking_index →
      (tickCalc cfg ti mic s).state.temp.ducking_index = s.temp.ducking_index + 1 ∧
      duckThreshold cfg s ≤ s.temp.last_duck_time ∧
      (tickCalc cfg ti mic s).state.temp.unducking_index = 0) ∧
    (s.temp.unducking_index < (tickCalc cfg ti mic s).state.temp.unducking_index →
      (tickCalc cfg ti mic s).state.temp.unducking_index = s.temp.unducking_index + 1 ∧
      unduckThreshold cfg s ≤ s.temp.last_unduck_time ∧
      (tickCalc cfg ti mic s).state.temp.ducking_index = 0) := by
  have hI := inv_reachable cfg ti s h
  obtain ⟨h1, h2, h3, h4, h5, h6, h7, h8⟩ := hI
  refine ⟨h3, h4, ?_, ?_⟩
  · cases mic with
    | none => exact (calc_step_cursors cfg ti s ⟨h1, h2, h3, h4, h5, h6, h7, h8⟩).1
    | some b =>
      exact (calc_step_cursors cfg ti _
        (inv_handle_result cfg s "Mic" b ⟨h1, h2, h3, h4, h5, h6, h7, h8⟩)).1
  · cases mic with
    | none => exact (calc_step_cursors cfg ti s ⟨h1, h2, h3, h4, h5, h6, h7, h8⟩).2
    | some b =>
      exact (calc_step_cursors cfg ti _
        (inv_handle_result cfg s "Mic" b ⟨h1, h2, h3, h4, h5, h6, h7, h8⟩)).2

/-- C4 witness: the monotonic-progress statement instantiated at the state
reached after one triggering tick of `reachCfg` (duck cursor at 1) and a
second triggering tick. -/
theorem claim_C4_witness :
    (tickCalc reachCfg 20 (some true) initState).state.temp.ducking_index
      ≤ reachCfg.ducking.length ∧
    (tickCalc reachCfg 20 (some true) initState).state.temp.unducking_index
      ≤ reachCfg.unducking.length ∧
    ((tickCalc reachCfg 20 (some true) initState).state.temp.ducking_index
        < (tickCalc reachCfg 20 (some true)
            (tickCalc reachCfg 20 (some true) initState).state).state.temp.ducking_index →
      (tickCalc reachCfg 20 (some true)
          (tickCalc reachCfg 20 (some true) initState).state).state.temp.ducking_index
        = (tickCalc reachCfg 20 (some true) initState).state.temp.ducking_index + 1 ∧
      duckThreshold reachCfg (tickCalc reachCfg 20 (some true) initState).state
        ≤ (tickCalc reachCfg 20 (some true) initState).state.temp.last_duck_time ∧
      (tickCalc reachCfg 20 (some true)
          (tickCalc reachCfg 20 (some true) initState).state).state.temp.unducking_index
        = 0) ∧
    ((tickCalc reachCfg 20 (some true) initState).state.temp.unducking_index
        < (tickCalc reachCfg 20 (some true)
            (tickCalc reachCfg 20 (some true) initState).state).state.temp.unducking_index →
      (tickCalc reachCfg 20 (some true)
          (tickCalc reachCfg 20 (some true) initState).state).state.temp.unducking_index
        = (tickCalc reachCfg 20 (some true) initState).state.temp.unducking_index + 1 ∧
      unduckThreshold reachCfg (tickCalc reachCfg 20 (some true) initState).state
        ≤ (tickCalc reachCfg 20 (some true) initState).state.temp.last_unduck_time ∧
      (tickCalc reachCfg 20 (some true)
          (tickCalc reachCfg 20 (some true) initState).state).state.temp.ducking_index
        = 0) :=
  claim_C4 reachCfg 20 (tickCalc reachCfg 20 (some true) initState).state
    (Reachable.step initState (some true) Reachable.init) (some true)

end GoxlrDucker
